import Mathlib

/- Shallow embedding of the Subtractive synthesizer repository:
   the polyphonic synth engine (src/services/AudioEngine.ts) and the
   swing-capable drum machine engine (src/unnamed/part_001, the current
   DrumMachineEngine revision; src/services/DrumMachineEngine.ts is an
   earlier revision of the same class without swing or per-track pitch).

   JS numbers are modelled as exact rationals.  Frequency-like values,
   which the source computes as q * Math.pow(2, e) with rational q and e,
   are modelled exactly by a pair (coeff, exp2) denoting coeff * 2 ^ exp2;
   the real-number semantics of such a pair appears in theorem statements
   through Real.rpow.  Web Audio API calls made by the engines are
   modelled as an emitted trace of commands; static one-time node wiring
   (connect calls that never change over a voice's life) is not recorded,
   except for the LFO output routing, which is dynamic. -/

namespace Subtractive

/-- Exact value of the form coeff * 2 ^ exp2 (both rational).  This is the
exact-arithmetic model of the source's q * Math.pow(2, e) frequency and
playback-rate computations. -/
structure Pow2 where
  coeff : ℚ
  exp2 : ℚ
deriving DecidableEq

/-- Multiply a Pow2 value by a rational scalar, as in 150 * rate. -/
def Pow2.scale (q : ℚ) (x : Pow2) : Pow2 := ⟨q * x.coeff, x.exp2⟩

/-- Waveform type from src/types.ts. -/
inductive Waveform
  | sine
  | square
  | sawtooth
  | triangle
deriving DecidableEq

/-- LFOTarget from src/types.ts ('pitch' | 'filter' | 'amp'). -/
inductive LfoTarget
  | pitch
  | filter
  | amp
deriving DecidableEq

/-- OscillatorParams from src/types.ts. -/
structure OscillatorParams where
  waveform : Waveform
  detune : ℚ
  enabled : Bool
  gain : ℚ
deriving DecidableEq

/-- LFOParams from src/types.ts. -/
structure LFOParams where
  waveform : Waveform
  rate : ℚ
  depth : ℚ
  delay : ℚ
  fade : ℚ
  target : LfoTarget
deriving DecidableEq

/-- Filter settings from src/types.ts (SynthParameters.filter). -/
structure FilterParams where
  cutoff : ℚ
  resonance : ℚ
deriving DecidableEq

/-- ADSR from src/types.ts. -/
structure ADSR where
  attack : ℚ
  decay : ℚ
  sustain : ℚ
  release : ℚ
deriving DecidableEq

/-- ADSR & \x7b amount \x7d from src/types.ts (SynthParameters.filterEnvelope). -/
structure FilterEnvelopeParams where
  attack : ℚ
  decay : ℚ
  sustain : ℚ
  release : ℚ
  amount : ℚ
deriving DecidableEq

/-- SynthParameters from src/types.ts. -/
structure SynthParameters where
  osc1 : OscillatorParams
  osc2 : OscillatorParams
  osc3 : OscillatorParams
  osc4 : OscillatorParams
  lfo : LFOParams
  filter : FilterParams
  ampEnvelope : ADSR
  filterEnvelope : FilterEnvelopeParams
deriving DecidableEq

/-- ActiveNote from src/services/AudioEngine.ts.  The interface holds the
voice's audio nodes; here a node reference is represented by its role in
the voice, so the record keeps only the mutable node properties the engine
later reads: the oscillator and LFO waveform types and the currently
connected LFO target. -/
structure ActiveNote where
  osc1Type : Waveform
  osc2Type : Waveform
  osc3Type : Waveform
  osc4Type : Waveform
  lfoType : Waveform
  lfoTarget : LfoTarget
deriving DecidableEq

/-- JS Map.set: replace the entry with the given key in place, or append a
new entry at the end. -/
def mapSet {α : Type} : List (ℕ × α) → ℕ → α → List (ℕ × α)
  | [], k, v => [(k, v)]
  | (k', v') :: rest, k, v =>
      if k' = k then (k, v) :: rest else (k', v') :: mapSet rest k v

/-- JS Map.delete: remove the entry with the given key. -/
def mapDelete {α : Type} : List (ℕ × α) → ℕ → List (ℕ × α)
  | [], _ => []
  | (k', v') :: rest, k =>
      if k' = k then rest else (k', v') :: mapDelete rest k

/-- JS Map.has. -/
def mapHas {α : Type} (m : List (ℕ × α)) (k : ℕ) : Bool :=
  m.any (fun kv => kv.1 == k)

/-- JS Map.get (none for a missing key). -/
def mapLookup {α : Type} : List (ℕ × α) → ℕ → Option α
  | [], _ => none
  | (k', v') :: rest, k => if k' = k then some v' else mapLookup rest k

/-- Concatenation of a list of lists. -/
def concatAll {α : Type} (ls : List (List α)) : List α :=
  ls.foldr (fun a b => a ++ b) []

/-- A sound-source node of one synth voice (the nodes on which start/stop
is called). -/
inductive VoiceNode
  | osc (i : Fin 4)
  | lfoOsc
  | filterEnvSource
deriving DecidableEq

/-- An automatable AudioParam (or connect destination) of one synth voice. -/
inductive VoiceParam
  | oscFreq (i : Fin 4)
  | oscDetune (i : Fin 4)
  | oscGain (i : Fin 4)
  | lfoFreq
  | lfoGainGain
  | filterFreq
  | filterQ
  | filterDetune
  | filterEnvOffset
  | filterEnvGainGain
  | ampGain
  | tremoloGainGain
deriving DecidableEq

/-- One Web Audio call made by the synth engine.  setValueAtCurrent p t
models the source idiom p.setValueAtTime(p.value, t), which anchors the
parameter at its current instantaneous value. -/
inductive AudioCmd
  | setValueAtTime (p : VoiceParam) (v : ℚ) (t : ℚ)
  | setFreqAtTime (p : VoiceParam) (v : Pow2) (t : ℚ)
  | linearRampToValueAtTime (p : VoiceParam) (v : ℚ) (t : ℚ)
  | setTargetAtTime (p : VoiceParam) (v : ℚ) (t : ℚ) (timeConstant : ℚ)
  | cancelScheduledValues (p : VoiceParam) (t : ℚ)
  | setValueAtCurrent (p : VoiceParam) (t : ℚ)
  | startNode (n : VoiceNode) (t : ℚ)
  | stopNode (n : VoiceNode) (t : ℚ)
  | setNodeType (n : VoiceNode) (w : Waveform)
  | connectLfoTo (p : VoiceParam)
  | disconnectLfoGain
deriving DecidableEq

/-- State of the AudioEngine class: audioContext (present or null),
activeNotes (a JS Map keyed by MIDI note number), and the held params.
The context's currentTime is passed to each operation as an argument. -/
structure EngineState where
  audioContext : Bool
  activeNotes : List (ℕ × ActiveNote)
  params : SynthParameters
deriving DecidableEq

namespace AudioEngine

/-- midiToFrequency (AudioEngine.ts lines 134-136):
440 * Math.pow(2, (note - 69) / 12). -/
def midiToFrequency (note : ℕ) : Pow2 :=
  ⟨440, ((note : ℚ) - 69) / 12⟩

/-- updateLfoDepth (AudioEngine.ts lines 118-132): computes maxGain from
the held params' lfo.depth by target and sets the LFO gain toward it. -/
def updateLfoDepth (p : SynthParameters) (target : LfoTarget) (time : ℚ) :
    List AudioCmd :=
  let depth := p.lfo.depth
  let maxGain : ℚ :=
    match target with
    | .pitch => depth * 1200
    | .filter => depth * 4800
    | .amp => depth * 0.5
  [AudioCmd.setTargetAtTime .lfoGainGain maxGain time 0.1]

/-- connectLfoToTarget (AudioEngine.ts lines 104-116): route the LFO gain
to the target's destination, then recompute the depth. -/
def connectLfoToTarget (p : SynthParameters) (target : LfoTarget) (time : ℚ) :
    List AudioCmd :=
  (match target with
   | .pitch =>
      [AudioCmd.connectLfoTo (.oscDetune 0), .connectLfoTo (.oscDetune 1),
       .connectLfoTo (.oscDetune 2), .connectLfoTo (.oscDetune 3)]
   | .filter => [AudioCmd.connectLfoTo .filterDetune]
   | .amp => [AudioCmd.connectLfoTo .tremoloGainGain])
  ++ updateLfoDepth p target time

/-- The release-scheduling calls of noteOff (AudioEngine.ts lines 279-299),
reading the releases from the engine's current params. -/
def noteOffCmds (p : SynthParameters) (now : ℚ) : List AudioCmd :=
  let ampRelease := p.ampEnvelope.release
  let filterRelease := p.filterEnvelope.release
  let stopTime := now + max ampRelease filterRelease
  [AudioCmd.cancelScheduledValues .ampGain now,
   .setValueAtCurrent .ampGain now,
   .linearRampToValueAtTime .ampGain 0 (now + ampRelease),
   .cancelScheduledValues .filterEnvOffset now,
   .setValueAtCurrent .filterEnvOffset now,
   .linearRampToValueAtTime .filterEnvOffset 0 (now + filterRelease),
   .stopNode (.osc 0) stopTime,
   .stopNode (.osc 1) stopTime,
   .stopNode (.osc 2) stopTime,
   .stopNode (.osc 3) stopTime,
   .stopNode .lfoOsc stopTime,
   .stopNode .filterEnvSource stopTime]

/-- noteOff (AudioEngine.ts lines 271-315): no-op without a context or an
active voice; otherwise deletes the map entry immediately and schedules
the release ramps and the source stops. -/
def noteOff (s : EngineState) (note : ℕ) (now : ℚ) :
    EngineState × List AudioCmd :=
  if !s.audioContext || !(mapHas s.activeNotes note) then (s, [])
  else
    ({s with activeNotes := mapDelete s.activeNotes note},
     noteOffCmds s.params now)

/-- The createOsc helper inside noteOn (AudioEngine.ts lines 182-195);
masterHeadroom = 0.25. -/
def createOscCmds (i : Fin 4) (op : OscillatorParams) (frequency : Pow2)
    (now : ℚ) : List AudioCmd :=
  [.setFreqAtTime (.oscFreq i) frequency now,
   .setValueAtTime (.oscDetune i) op.detune now,
   .setValueAtTime (.oscGain i) (if op.enabled then op.gain * 0.25 else 0) now,
   .startNode (.osc i) now]

/-- maxLfoDepthVal computed inside noteOn (AudioEngine.ts lines 210-213);
the source initializes it to 0 and overwrites it in an if-chain over the
three targets, which the match mirrors exhaustively. -/
def maxLfoDepthVal (p : SynthParameters) : ℚ :=
  match p.lfo.target with
  | .pitch => p.lfo.depth * 1200
  | .filter => p.lfo.depth * 4800
  | .amp => p.lfo.depth * 0.5

/-- The voice-construction calls of noteOn (AudioEngine.ts lines 149-266),
in source order. -/
def noteOnVoiceCmds (p : SynthParameters) (note velocity : ℕ) (now : ℚ) :
    List AudioCmd :=
  let frequency := midiToFrequency note
  let velocityGain : ℚ := (velocity : ℚ) / 127
  let peakAmp := velocityGain
  let sustainAmp := peakAmp * p.ampEnvelope.sustain
  [AudioCmd.setValueAtTime .tremoloGainGain 1 now,
   .setValueAtTime .ampGain 0 now,
   .setValueAtTime .filterQ p.filter.resonance now,
   .setValueAtTime .filterFreq p.filter.cutoff now,
   .setValueAtTime .filterEnvOffset 0 now,
   .startNode .filterEnvSource now,
   .setValueAtTime .filterEnvGainGain p.filterEnvelope.amount now]
  ++ createOscCmds 0 p.osc1 frequency now
  ++ createOscCmds 1 p.osc2 frequency now
  ++ createOscCmds 2 p.osc3 frequency now
  ++ createOscCmds 3 p.osc4 frequency now
  ++ [AudioCmd.setValueAtTime .lfoFreq p.lfo.rate now,
      .setValueAtTime .lfoGainGain 0 now,
      .setValueAtTime .lfoGainGain 0 (now + p.lfo.delay)]
  ++ (if p.lfo.fade > 0 then
        [AudioCmd.linearRampToValueAtTime .lfoGainGain (maxLfoDepthVal p)
          (now + p.lfo.delay + p.lfo.fade)]
      else
        [AudioCmd.setValueAtTime .lfoGainGain (maxLfoDepthVal p)
          (now + p.lfo.delay)])
  ++ [AudioCmd.startNode .lfoOsc now]
  ++ (match p.lfo.target with
      | .pitch =>
         [AudioCmd.connectLfoTo (.oscDetune 0), .connectLfoTo (.oscDetune 1),
          .connectLfoTo (.oscDetune 2), .connectLfoTo (.oscDetune 3)]
      | .filter => [AudioCmd.connectLfoTo .filterDetune]
      | .amp => [AudioCmd.connectLfoTo .tremoloGainGain])
  ++ [AudioCmd.linearRampToValueAtTime .ampGain peakAmp
        (now + p.ampEnvelope.attack),
      .linearRampToValueAtTime .ampGain sustainAmp
        (now + p.ampEnvelope.attack + p.ampEnvelope.decay),
      .linearRampToValueAtTime .filterEnvOffset 1
        (now + p.filterEnvelope.attack),
      .linearRampToValueAtTime .filterEnvOffset p.filterEnvelope.sustain
        (now + p.filterEnvelope.attack + p.filterEnvelope.decay)]

/-- The ActiveNote record stored by noteOn (AudioEngine.ts lines 230-238),
projected to the node properties the engine later reads. -/
def newActiveNote (p : SynthParameters) : ActiveNote :=
  ⟨p.osc1.waveform, p.osc2.waveform, p.osc3.waveform, p.osc4.waveform,
   p.lfo.waveform, p.lfo.target⟩

/-- noteOn (AudioEngine.ts lines 138-269): no-op without a context; if the
note is already active, runs noteOff for it synchronously first; then
builds the new voice and stores it in the active map. -/
def noteOn (s : EngineState) (note velocity : ℕ) (now : ℚ) :
    EngineState × List AudioCmd :=
  if !s.audioContext then (s, [])
  else
    let off := if mapHas s.activeNotes note then noteOff s note now else (s, [])
    let s1 := off.1
    let p := s1.params
    ({s1 with activeNotes := mapSet s1.activeNotes note (newActiveNote p)},
     off.2 ++ noteOnVoiceCmds p note velocity now)

/-- The per-voice live-update calls of updateParams (AudioEngine.ts lines
56-101), in source order, against the freshly stored params. -/
def updateNoteCmds (p : SynthParameters) (v : ActiveNote) (now : ℚ) :
    List AudioCmd :=
  (if v.osc1Type ≠ p.osc1.waveform
     then [AudioCmd.setNodeType (.osc 0) p.osc1.waveform] else [])
  ++ (if v.osc2Type ≠ p.osc2.waveform
        then [AudioCmd.setNodeType (.osc 1) p.osc2.waveform] else [])
  ++ (if v.osc3Type ≠ p.osc3.waveform
        then [AudioCmd.setNodeType (.osc 2) p.osc3.waveform] else [])
  ++ (if v.osc4Type ≠ p.osc4.waveform
        then [AudioCmd.setNodeType (.osc 3) p.osc4.waveform] else [])
  ++ [AudioCmd.setValueAtTime (.oscDetune 0) p.osc1.detune now,
      .setValueAtTime (.oscDetune 1) p.osc2.detune now,
      .setValueAtTime (.oscDetune 2) p.osc3.detune now,
      .setValueAtTime (.oscDetune 3) p.osc4.detune now]
  ++ [AudioCmd.setTargetAtTime (.oscGain 0)
        (if p.osc1.enabled then p.osc1.gain * 0.25 else 0) now 0.01,
      .setTargetAtTime (.oscGain 1)
        (if p.osc2.enabled then p.osc2.gain * 0.25 else 0) now 0.01,
      .setTargetAtTime (.oscGain 2)
        (if p.osc3.enabled then p.osc3.gain * 0.25 else 0) now 0.01,
      .setTargetAtTime (.oscGain 3)
        (if p.osc4.enabled then p.osc4.gain * 0.25 else 0) now 0.01]
  ++ [AudioCmd.setTargetAtTime .filterFreq p.filter.cutoff now 0.01,
      .setTargetAtTime .filterQ p.filter.resonance now 0.01,
      .setTargetAtTime .filterEnvGainGain p.filterEnvelope.amount now 0.01]
  ++ (if v.lfoType ≠ p.lfo.waveform
        then [AudioCmd.setNodeType .lfoOsc p.lfo.waveform] else [])
  ++ [AudioCmd.setTargetAtTime .lfoFreq p.lfo.rate now 0.01]
  ++ (if v.lfoTarget ≠ p.lfo.target then
        AudioCmd.disconnectLfoGain :: connectLfoToTarget p p.lfo.target now
      else updateLfoDepth p p.lfo.target now)

/-- The ActiveNote record after one updateParams pass (waveform types are
overwritten where different; lfoTarget is reassigned in the target-switch
branch only). -/
def updateNoteState (p : SynthParameters) (v : ActiveNote) : ActiveNote :=
  { osc1Type := p.osc1.waveform
    osc2Type := p.osc2.waveform
    osc3Type := p.osc3.waveform
    osc4Type := p.osc4.waveform
    lfoType := p.lfo.waveform
    lfoTarget := if v.lfoTarget ≠ p.lfo.target then p.lfo.target else v.lfoTarget }

/-- updateParams (AudioEngine.ts lines 46-102): stores the new params,
returns without audio work when no context exists, otherwise applies live
updates to every active voice. -/
def updateParams (s : EngineState) (newParams : SynthParameters) (now : ℚ) :
    EngineState × List AudioCmd :=
  let s1 := {s with params := newParams}
  if !s.audioContext then (s1, [])
  else
    ({s1 with activeNotes :=
        s.activeNotes.map (fun kv => (kv.1, updateNoteState newParams kv.2))},
     concatAll (s.activeNotes.map (fun kv => updateNoteCmds newParams kv.2 now)))

/-- One host-driven engine operation. -/
inductive EngineOp
  | start
  | noteOn (note velocity : ℕ) (now : ℚ)
  | noteOff (note : ℕ) (now : ℚ)
  | updateParams (p : SynthParameters) (now : ℚ)

/-- Apply one operation to the engine state (start models a successful
AudioEngine.start, which creates the audio context). -/
def stepOp (s : EngineState) : EngineOp → EngineState × List AudioCmd
  | .start => ({s with audioContext := true}, [])
  | .noteOn n v t => noteOn s n v t
  | .noteOff n t => noteOff s n t
  | .updateParams p t => updateParams s p t

/-- Engine state right after construction: no audio context, no active
notes, the initial params held. -/
def initState (p : SynthParameters) : EngineState := ⟨false, [], p⟩

/-- Run a sequence of engine operations. -/
def runOps (s : EngineState) (ops : List EngineOp) : EngineState :=
  ops.foldl (fun st op => (stepOp st op).1) s

end AudioEngine

/-- DrumTrackName from src/types.ts. -/
inductive DrumTrackName
  | kick
  | snare
  | hihat
  | crash
deriving DecidableEq

/-- StepSequencePattern from src/types.ts: each track maps to a number
array of 0s and 1s for 16 steps. -/
structure StepSequencePattern where
  kick : List ℚ
  snare : List ℚ
  hihat : List ℚ
  crash : List ℚ
deriving DecidableEq

/-- The trackPitches record of the drum machine engine (semitone offsets,
one per track). -/
structure TrackPitches where
  kick : ℚ
  snare : ℚ
  hihat : ℚ
  crash : ℚ
deriving DecidableEq

/-- Field read of the trackPitches record. -/
def TrackPitches.get (tp : TrackPitches) : DrumTrackName → ℚ
  | .kick => tp.kick
  | .snare => tp.snare
  | .hihat => tp.hihat
  | .crash => tp.crash

/-- Field write of the trackPitches record. -/
def TrackPitches.set (tp : TrackPitches) : DrumTrackName → ℚ → TrackPitches
  | .kick, v => {tp with kick := v}
  | .snare, v => {tp with snare := v}
  | .hihat, v => {tp with hihat := v}
  | .crash, v => {tp with crash := v}

/-- A sound-source node of one drum one-shot. -/
inductive DrumNodeName
  | kickOsc
  | snareNoise
  | snareOsc
  | hihatNoise
  | crashNoise
deriving DecidableEq

/-- An AudioParam touched by a drum one-shot generator. -/
inductive DrumParamRef
  | kickOscFreq
  | kickGainGain
  | snarePlaybackRate
  | snareFilterFreq
  | snareNoiseGainGain
  | snareOscFreq
  | snareOscGainGain
  | hihatPlaybackRate
  | hihatFilterFreq
  | hihatNoiseGainGain
  | crashPlaybackRate
  | crashFilterFreq
  | crashGainGain
deriving DecidableEq

/-- One Web Audio call made by a drum generator.  setVal p v models a
direct p.value = v assignment (performed when the generator runs, not at a
scheduled time); the random noise-buffer fills are not value-modelled. -/
inductive DrumCmd
  | setValueAtTime (p : DrumParamRef) (v : Pow2) (t : ℚ)
  | expRampToValueAtTime (p : DrumParamRef) (v : Pow2) (t : ℚ)
  | setVal (p : DrumParamRef) (v : Pow2)
  | start (n : DrumNodeName) (t : ℚ)
  | stop (n : DrumNodeName) (t : ℚ)
deriving DecidableEq

/-- The scheduled time a drum command carries, if any. -/
def DrumCmd.time : DrumCmd → Option ℚ
  | .setValueAtTime _ _ t => some t
  | .expRampToValueAtTime _ _ t => some t
  | .setVal _ _ => none
  | .start _ t => some t
  | .stop _ t => some t

/-- An observable event of the drum machine engine: an audio command, the
deferred UI step callback armed with setTimeout (delay in seconds, clamped
at 0), an immediate step-callback invocation, the clearTimeout in stop,
and the re-arming of the lookahead wake timer. -/
inductive DrumEvent
  | audio (c : DrumCmd)
  | scheduleStepUI (step : ℕ) (delay : ℚ)
  | stepCallback (v : ℤ)
  | clearTimer
  | armTimer
deriving DecidableEq

/-- Whether an event is an audio command. -/
def DrumEvent.isAudio : DrumEvent → Bool
  | .audio _ => true
  | _ => false

/-- State of the DrumMachineEngine class (the swing-capable revision,
src/unnamed/part_001).  The audio context's currentTime is passed to each
operation as an argument; hasStepCallback records whether an onStepChange
callback was supplied at construction. -/
structure DrumState where
  isPlaying : Bool
  bpm : ℚ
  pattern : Option StepSequencePattern
  currentStep : ℕ
  swing : ℚ
  trackPitches : TrackPitches
  nextNoteTime : ℚ
  hasStepCallback : Bool
deriving DecidableEq

namespace DrumMachineEngine

/-- getRate (part_001 lines 37-40): Math.pow(2, semitones / 12), an exact
2 ^ (semitones / 12). -/
def getRate (tp : TrackPitches) (track : DrumTrackName) : Pow2 :=
  ⟨1, tp.get track / 12⟩

/-- createKick (part_001 lines 42-61). -/
def createKick (rate : Pow2) (time : ℚ) : List DrumCmd :=
  [.setValueAtTime .kickOscFreq (Pow2.scale 150 rate) time,
   .expRampToValueAtTime .kickOscFreq ⟨0.01, 0⟩ (time + 0.1),
   .setValueAtTime .kickGainGain ⟨1, 0⟩ time,
   .expRampToValueAtTime .kickGainGain ⟨0.01, 0⟩ (time + 0.1),
   .start .kickOsc time,
   .stop .kickOsc (time + 0.15)]

/-- createSnare (part_001 lines 63-97). -/
def createSnare (rate : Pow2) (time : ℚ) : List DrumCmd :=
  [.setVal .snarePlaybackRate rate,
   .setVal .snareFilterFreq (Pow2.scale 1000 rate),
   .setValueAtTime .snareNoiseGainGain ⟨0.5, 0⟩ time,
   .expRampToValueAtTime .snareNoiseGainGain ⟨0.01, 0⟩ (time + 0.15),
   .setVal .snareOscFreq (Pow2.scale 100 rate),
   .setValueAtTime .snareOscGainGain ⟨0.7, 0⟩ time,
   .expRampToValueAtTime .snareOscGainGain ⟨0.01, 0⟩ (time + 0.1),
   .start .snareNoise time,
   .start .snareOsc time,
   .stop .snareNoise (time + 0.2),
   .stop .snareOsc (time + 0.15)]

/-- createHihat (part_001 lines 99-122). -/
def createHihat (rate : Pow2) (time : ℚ) : List DrumCmd :=
  [.setVal .hihatPlaybackRate rate,
   .setVal .hihatFilterFreq (Pow2.scale 7000 rate),
   .setValueAtTime .hihatNoiseGainGain ⟨0.3, 0⟩ time,
   .expRampToValueAtTime .hihatNoiseGainGain ⟨0.01, 0⟩ (time + 0.05),
   .start .hihatNoise time,
   .stop .hihatNoise (time + 0.1)]

/-- createCrash (part_001 lines 124-148). -/
def createCrash (rate : Pow2) (time : ℚ) : List DrumCmd :=
  [.setVal .crashPlaybackRate rate,
   .setValueAtTime .crashFilterFreq (Pow2.scale 3000 rate) time,
   .setValueAtTime .crashGainGain ⟨0.4, 0⟩ time,
   .expRampToValueAtTime .crashGainGain ⟨0.001, 0⟩ (time + 1.2),
   .start .crashNoise time,
   .stop .crashNoise (time + 1.5)]

/-- JS truthiness of a pattern-array read (undefined, modelled by the
default 0, and the number 0 are falsy). -/
def jsTruthy (q : ℚ) : Bool := q != 0

/-- scheduleNextNote (part_001 lines 161-199): computes the swing delay
for odd steps, fires each set track's generator at the swung play time,
arms the deferred UI callback, then advances the unswung grid time and the
step counter. -/
def scheduleNextNote (s : DrumState) (now : ℚ) :
    DrumState × List DrumEvent :=
  match s.pattern with
  | none => (s, [])
  | some pat =>
    let secondsPerBeat : ℚ := 60 / s.bpm
    let secondsPer16thNote := secondsPerBeat / 4
    let isOffbeat := s.currentStep % 2 == 1
    let swingFactor := s.swing / 100
    let swingDelay : ℚ :=
      if isOffbeat then swingFactor * (secondsPer16thNote / 2) else 0
    let playTime := s.nextNoteTime + swingDelay
    let hits :=
      (if jsTruthy (pat.kick.getD s.currentStep 0) then
        (createKick (getRate s.trackPitches .kick) playTime).map .audio else [])
      ++ (if jsTruthy (pat.snare.getD s.currentStep 0) then
        (createSnare (getRate s.trackPitches .snare) playTime).map .audio else [])
      ++ (if jsTruthy (pat.hihat.getD s.currentStep 0) then
        (createHihat (getRate s.trackPitches .hihat) playTime).map .audio else [])
      ++ (if jsTruthy (pat.crash.getD s.currentStep 0) then
        (createCrash (getRate s.trackPitches .crash) playTime).map .audio else [])
    let ui :=
      if s.hasStepCallback then
        [DrumEvent.scheduleStepUI s.currentStep (max 0 (playTime - now))]
      else []
    ({s with nextNoteTime := s.nextNoteTime + secondsPer16thNote,
             currentStep := (s.currentStep + 1) % 16},
     hits ++ ui)

/-- The while loop of scheduler (part_001 lines 201-207), indexed by fuel;
for a positive bpm the real loop runs the same finitely many iterations. -/
def schedulerLoop : ℕ → DrumState → ℚ → DrumState × List DrumEvent
  | 0, s, _ => (s, [])
  | fuel + 1, s, now =>
    if s.nextNoteTime < now + 0.1 then
      let r1 := scheduleNextNote s now
      let r2 := schedulerLoop fuel r1.1 now
      (r2.1, r1.2 ++ r2.2)
    else (s, [])

/-- scheduler (part_001 lines 201-207): run the lookahead while loop, then
re-arm the wake timer. -/
def scheduler (fuel : ℕ) (s : DrumState) (now : ℚ) :
    DrumState × List DrumEvent :=
  let r := schedulerLoop fuel s now
  (r.1, r.2 ++ [DrumEvent.armTimer])

/-- play (part_001 lines 209-220): no-op when already playing or without a
pattern; otherwise becomes playing, resets the step, gives the grid a
0.05 s lead-in, and runs the scheduler. -/
def play (fuel : ℕ) (s : DrumState) (now : ℚ) :
    DrumState × List DrumEvent :=
  if s.isPlaying || s.pattern == none then (s, [])
  else
    scheduler fuel
      {s with isPlaying := true, currentStep := 0, nextNoteTime := now + 0.05}
      now

/-- stop (part_001 lines 222-229): no-op when already stopped; otherwise
leaves the playing state, clears the pending wake timer, and emits the
sentinel -1 to the step callback. -/
def stop (s : DrumState) : DrumState × List DrumEvent :=
  if !s.isPlaying then (s, [])
  else
    ({s with isPlaying := false},
     DrumEvent.clearTimer ::
       (if s.hasStepCallback then [DrumEvent.stepCallback (-1)] else []))

/-- setBpm (part_001 lines 231-233). -/
def setBpm (s : DrumState) (newBpm : ℚ) : DrumState := {s with bpm := newBpm}

/-- setPattern (part_001 lines 235-237). -/
def setPattern (s : DrumState) (pat : StepSequencePattern) : DrumState :=
  {s with pattern := some pat}

/-- setSwing (part_001 lines 29-31). -/
def setSwing (s : DrumState) (value : ℚ) : DrumState := {s with swing := value}

/-- setTrackPitch (part_001 lines 33-35). -/
def setTrackPitch (s : DrumState) (track : DrumTrackName) (pitch : ℚ) :
    DrumState :=
  {s with trackPitches := s.trackPitches.set track pitch}

end DrumMachineEngine

/-- depthFor, modelled from the spec's words (section 4.2): pitch maps to
depth*1200 cents, filter to depth*4800 Hz, amp to depth*0.5 tremolo gain
span.  Stated separately from the engine's two inline computations so the
code can be compared against the spec's table. -/
def depthFor (target : LfoTarget) (depth : ℚ) : ℚ :=
  match target with
  | .pitch => depth * 1200
  | .filter => depth * 4800
  | .amp => depth * 0.5

/-- A concrete oscillator configuration used by witness instances. -/
def exampleOsc : OscillatorParams := ⟨.sawtooth, 0, true, 0.5⟩

/-- A concrete full patch used by witness instances. -/
def exampleParams : SynthParameters :=
  ⟨exampleOsc, exampleOsc, exampleOsc, exampleOsc,
   ⟨.sine, 5, 0.5, 0.1, 0.2, .pitch⟩,
   ⟨4000, 5⟩,
   ⟨0.01, 0.2, 0.7, 0.5⟩,
   ⟨0.02, 0.3, 0.4, 0.4, 3000⟩⟩

/-- A second patch with different release times, used to witness that
noteOff reads the engine's current parameters. -/
def exampleParams2 : SynthParameters :=
  ⟨exampleOsc, exampleOsc, exampleOsc, exampleOsc,
   ⟨.triangle, 2, 0.25, 0, 0, .filter⟩,
   ⟨800, 1⟩,
   ⟨0.05, 0.1, 0.5, 1.5⟩,
   ⟨0.1, 0.2, 0.3, 0.25, 1000⟩⟩

/-- Engine state after start() and one noteOn, used by witness instances. -/
def exState1 : EngineState :=
  AudioEngine.runOps (AudioEngine.initState exampleParams)
    [AudioEngine.EngineOp.start, AudioEngine.EngineOp.noteOn 60 127 0]

/-- A concrete 16-step pattern with every track set on step 0, used by
witness instances. -/
def examplePattern : StepSequencePattern :=
  ⟨[1, 0, 0, 0, 1, 0, 0, 0, 1, 0, 0, 0, 1, 0, 0, 0],
   [1, 0, 0, 0, 1, 0, 0, 0, 0, 0, 0, 0, 1, 0, 0, 0],
   [1, 1, 1, 1, 1, 1, 1, 1, 1, 1, 1, 1, 1, 1, 1, 1],
   [1, 0, 0, 0, 0, 0, 0, 0, 0, 0, 0, 0, 0, 0, 0, 0]⟩

/-- A concrete stopped drum-machine state with a loaded pattern, used by
witness instances. -/
def exampleDrumState : DrumState :=
  ⟨false, 120, some examplePattern, 0, 50, ⟨2, 0, -3, 0⟩, 0, true⟩

section MapLemmas

variable {α : Type}

/-- mapSet keys: membership in the updated map's key list. -/
lemma mem_keys_mapSet (m : List (ℕ × α)) (k : ℕ) (v : α) (x : ℕ) :
    x ∈ (mapSet m k v).map Prod.fst ↔ x = k ∨ x ∈ m.map Prod.fst := by
  induction m with
  | nil => simp [mapSet]
  | cons hd tl ih =>
    obtain ⟨k', v'⟩ := hd
    by_cases hk : k' = k
    · subst hk
      simp [mapSet]
    · simp only [mapSet, if_neg hk, List.map_cons, List.mem_cons, ih]
      tauto

/-- mapSet preserves distinctness of keys. -/
lemma nodup_keys_mapSet (m : List (ℕ × α)) (k : ℕ) (v : α)
    (h : (m.map Prod.fst).Nodup) : ((mapSet m k v).map Prod.fst).Nodup := by
  induction m with
  | nil => simp [mapSet]
  | cons hd tl ih =>
    obtain ⟨k', v'⟩ := hd
    simp only [List.map_cons, List.nodup_cons] at h
    by_cases hk : k' = k
    · subst hk
      simpa [mapSet] using h
    · simp only [mapSet, if_neg hk, List.map_cons, List.nodup_cons]
      refine ⟨?_, ih h.2⟩
      rw [mem_keys_mapSet]
      rintro (rfl | hx)
      · exact hk rfl
      · exact h.1 hx

/-- mapDelete returns a sublist of the original entry list. -/
lemma sublist_mapDelete (m : List (ℕ × α)) (k : ℕ) :
    List.Sublist (mapDelete m k) m := by
  induction m with
  | nil => simp [mapDelete]
  | cons hd tl ih =>
    obtain ⟨k', v'⟩ := hd
    by_cases hk : k' = k
    · simp only [mapDelete, hk, if_true]
      exact List.sublist_cons_self (k, v') tl
    · simpa [mapDelete, hk] using List.Sublist.cons₂ (k', v') ih

/-- mapDelete preserves distinctness of keys. -/
lemma nodup_keys_mapDelete (m : List (ℕ × α)) (k : ℕ)
    (h : (m.map Prod.fst).Nodup) : ((mapDelete m k).map Prod.fst).Nodup :=
  List.Nodup.sublist (List.Sublist.map Prod.fst (sublist_mapDelete m k)) h

/-- Under distinct keys, a deleted key no longer resolves. -/
lemma lookup_mapDelete_self (m : List (ℕ × α)) (k : ℕ)
    (h : (m.map Prod.fst).Nodup) : mapLookup (mapDelete m k) k = none := by
  induction m with
  | nil => simp [mapDelete, mapLookup]
  | cons hd tl ih =>
    obtain ⟨k', v'⟩ := hd
    simp only [List.map_cons, List.nodup_cons] at h
    by_cases hk : k' = k
    · subst hk
      rw [mapDelete, if_pos rfl]
      clear ih
      induction tl with
      | nil => simp [mapLookup]
      | cons hd2 tl2 ih2 =>
        obtain ⟨k2, v2⟩ := hd2
        simp only [List.map_cons, List.mem_cons, List.nodup_cons] at h
        rw [mapLookup]
        rw [if_neg (fun hh => h.1 (Or.inl hh.symm))]
        exact ih2 ⟨fun hx => h.1 (Or.inr hx), h.2.2⟩
    · rw [mapDelete, if_neg hk, mapLookup, if_neg hk]
      exact ih h.2

/-- Mapping over the values leaves the key list unchanged. -/
lemma keys_map_values (m : List (ℕ × α)) (f : α → α) :
    ((m.map (fun kv => (kv.1, f kv.2))).map Prod.fst) = m.map Prod.fst := by
  induction m with
  | nil => rfl
  | cons hd tl ih => simp [ih]

/-- Mapping over the values does not change key presence. -/
lemma mapHas_map_values (m : List (ℕ × α)) (f : α → α) (k : ℕ) :
    mapHas (m.map (fun kv => (kv.1, f kv.2))) k = mapHas m k := by
  induction m with
  | nil => rfl
  | cons hd tl ih => simp [mapHas] at ih ⊢; rw [ih]

/-- Membership in a conditional list with an empty alternative. -/
lemma mem_of_mem_ite {β : Type} {P : Prop} [Decidable P] {a : β}
    {l : List β} (h : a ∈ if P then l else []) : a ∈ l := by
  by_cases hP : P
  · simpa [hP] using h
  · simp [hP] at h

end MapLemmas

namespace AudioEngine

/-- Every state reachable from a freshly constructed engine has distinct
keys in its active-note map. -/
lemma nodup_keys_stepOp (s : EngineState) (op : EngineOp)
    (h : (s.activeNotes.map Prod.fst).Nodup) :
    (((stepOp s op).1.activeNotes).map Prod.fst).Nodup := by
  cases op with
  | start => simpa [stepOp] using h
  | noteOn n v t =>
    rw [stepOp, noteOn]
    by_cases hc : s.audioContext
    · by_cases hh : mapHas s.activeNotes n
      · rw [noteOff]
        simp only [hc, hh]
        simp only [Bool.not_true, Bool.false_or, Bool.or_false,
          Bool.false_eq_true, if_false, if_true]
        exact nodup_keys_mapSet _ _ _ (nodup_keys_mapDelete _ _ h)
      · simp only [hc, hh]
        simp only [Bool.not_true, Bool.false_eq_true, if_false, if_true]
        exact nodup_keys_mapSet _ _ _ h
    · simp only [Bool.not_eq_true] at hc
      simp [hc, h]
  | noteOff n t =>
    rw [stepOp, noteOff]
    by_cases hc : s.audioContext <;> by_cases hh : mapHas s.activeNotes n <;>
      simp [hc, hh, h, nodup_keys_mapDelete]
  | updateParams p t =>
    rw [stepOp, updateParams]
    by_cases hc : s.audioContext
    · simp only [hc, Bool.not_true, Bool.false_eq_true, if_false]
      rw [keys_map_values]
      exact h
    · simp only [Bool.not_eq_true] at hc
      simp [hc, h]

/-- Key distinctness is an invariant of arbitrary operation sequences. -/
lemma nodup_keys_runOps (s : EngineState) (ops : List EngineOp)
    (h : (s.activeNotes.map Prod.fst).Nodup) :
    ((runOps s ops).activeNotes.map Prod.fst).Nodup := by
  induction ops generalizing s with
  | nil => exact h
  | cons op rest ih =>
    rw [runOps, List.foldl_cons]
    exact ih _ (nodup_keys_stepOp s op h)

end AudioEngine

namespace DrumMachineEngine

/-- Every scheduled time in a kick one-shot is at or after its play time. -/
lemma createKick_time_ge (rate : Pow2) (t : ℚ) :
    ∀ c ∈ createKick rate t, ∀ tm, c.time = some tm → t ≤ tm := by
  intro c hc tm htm
  simp only [createKick, List.mem_cons, List.not_mem_nil, or_false] at hc
  rcases hc with rfl | rfl | rfl | rfl | rfl | rfl <;>
    simp [DrumCmd.time] at htm <;> subst htm <;> linarith

/-- Every scheduled time in a snare one-shot is at or after its play time. -/
lemma createSnare_time_ge (rate : Pow2) (t : ℚ) :
    ∀ c ∈ createSnare rate t, ∀ tm, c.time = some tm → t ≤ tm := by
  intro c hc tm htm
  simp only [createSnare, List.mem_cons, List.not_mem_nil, or_false] at hc
  rcases hc with rfl | rfl | rfl | rfl | rfl | rfl | rfl | rfl | rfl | rfl | rfl <;>
    simp [DrumCmd.time] at htm <;> subst htm <;> linarith

/-- Every scheduled time in a hi-hat one-shot is at or after its play time. -/
lemma createHihat_time_ge (rate : Pow2) (t : ℚ) :
    ∀ c ∈ createHihat rate t, ∀ tm, c.time = some tm → t ≤ tm := by
  intro c hc tm htm
  simp only [createHihat, List.mem_cons, List.not_mem_nil, or_false] at hc
  rcases hc with rfl | rfl | rfl | rfl | rfl | rfl <;>
    simp [DrumCmd.time] at htm <;> subst htm <;> linarith

/-- Every scheduled time in a crash one-shot is at or after its play time. -/
lemma createCrash_time_ge (rate : Pow2) (t : ℚ) :
    ∀ c ∈ createCrash rate t, ∀ tm, c.time = some tm → t ≤ tm := by
  intro c hc tm htm
  simp only [createCrash, List.mem_cons, List.not_mem_nil, or_false] at hc
  rcases hc with rfl | rfl | rfl | rfl | rfl | rfl <;>
    simp [DrumCmd.time] at htm <;> subst htm <;> linarith

/-- scheduleNextNote leaves bpm and swing unchanged. -/
lemma scheduleNextNote_fields (s : DrumState) (now : ℚ) :
    (scheduleNextNote s now).1.bpm = s.bpm ∧
    (scheduleNextNote s now).1.swing = s.swing := by
  cases hp : s.pattern <;> simp [scheduleNextNote, hp]

/-- With a positive tempo and nonnegative swing, one scheduling pass never
places an audio command before the grid time it entered with, and the grid
time does not move backwards. -/
lemma scheduleNextNote_time_ge (s : DrumState) (now t0 : ℚ)
    (hbpm : 0 < s.bpm) (hsw : 0 ≤ s.swing) (hnt : t0 ≤ s.nextNoteTime) :
    (∀ c : DrumCmd, DrumEvent.audio c ∈ (scheduleNextNote s now).2 →
       ∀ tm, c.time = some tm → t0 ≤ tm) ∧
    t0 ≤ (scheduleNextNote s now).1.nextNoteTime := by
  cases hp : s.pattern with
  | none => simp [scheduleNextNote, hp, hnt]
  | some pat =>
    have hsp : (0 : ℚ) < 60 / s.bpm / 4 := by positivity
    have hsd : (0 : ℚ) ≤
        (if (s.currentStep % 2 == 1) = true
          then s.swing / 100 * (60 / s.bpm / 4 / 2) else 0) := by
      split
      · have h1 : (0 : ℚ) ≤ s.swing / 100 := by positivity
        have h2 : (0 : ℚ) ≤ 60 / s.bpm / 4 / 2 := by positivity
        exact mul_nonneg h1 h2
      · exact le_refl 0
    constructor
    · intro c hc tm htm
      simp only [scheduleNextNote, hp] at hc
      simp only [List.mem_append] at hc
      have hplay : t0 ≤ s.nextNoteTime +
          (if (s.currentStep % 2 == 1) = true
            then s.swing / 100 * (60 / s.bpm / 4 / 2) else 0) := by linarith
      rcases hc with (((hc | hc) | hc) | hc) | hc
      · have hm := mem_of_mem_ite hc
        simp only [List.mem_map, DrumEvent.audio.injEq] at hm
        obtain ⟨c', hc', rfl⟩ := hm
        exact le_trans hplay (createKick_time_ge _ _ c' hc' tm htm)
      · have hm := mem_of_mem_ite hc
        simp only [List.mem_map, DrumEvent.audio.injEq] at hm
        obtain ⟨c', hc', rfl⟩ := hm
        exact le_trans hplay (createSnare_time_ge _ _ c' hc' tm htm)
      · have hm := mem_of_mem_ite hc
        simp only [List.mem_map, DrumEvent.audio.injEq] at hm
        obtain ⟨c', hc', rfl⟩ := hm
        exact le_trans hplay (createHihat_time_ge _ _ c' hc' tm htm)
      · have hm := mem_of_mem_ite hc
        simp only [List.mem_map, DrumEvent.audio.injEq] at hm
        obtain ⟨c', hc', rfl⟩ := hm
        exact le_trans hplay (createCrash_time_ge _ _ c' hc' tm htm)
      · have hm := mem_of_mem_ite hc
        simp at hm
    · simp only [scheduleNextNote, hp]
      linarith

/-- The lookahead loop never places an audio command before the grid time
it entered with. -/
lemma schedulerLoop_time_ge (fuel : ℕ) (s : DrumState) (now t0 : ℚ)
    (hbpm : 0 < s.bpm) (hsw : 0 ≤ s.swing) (hnt : t0 ≤ s.nextNoteTime) :
    ∀ c : DrumCmd, DrumEvent.audio c ∈ (schedulerLoop fuel s now).2 →
      ∀ tm, c.time = some tm → t0 ≤ tm := by
  induction fuel generalizing s with
  | zero => simp [schedulerLoop]
  | succ n ih =>
    intro c hc tm htm
    rw [schedulerLoop] at hc
    split at hc
    · simp only [List.mem_append] at hc
      rcases hc with hc | hc
      · exact (scheduleNextNote_time_ge s now t0 hbpm hsw hnt).1 c hc tm htm
      · have hb := (scheduleNextNote_fields s now).1
        have hw := (scheduleNextNote_fields s now).2
        exact ih (scheduleNextNote s now).1 (hb ▸ hbpm) (hw ▸ hsw)
          (scheduleNextNote_time_ge s now t0 hbpm hsw hnt).2 c hc tm htm
    · simp at hc

end DrumMachineEngine

open AudioEngine

/-- C1: over every sequence of engine operations, the active-voice map
keeps at most one entry per MIDI note number; and noteOn on an
already-active note runs noteOff for that note synchronously first, so
the emitted trace is the noteOff trace followed by the new voice's trace
and the new entry is inserted into a map from which the old entry has
already been removed. -/
theorem noteOn_unique_voice_per_note (p0 : SynthParameters)
    (ops : List EngineOp) (s : EngineState)
    (hs : s = runOps (initState p0) ops) (note velocity : ℕ) (now : ℚ)
    (hctx : s.audioContext = true) (hact : mapHas s.activeNotes note = true) :
    (s.activeNotes.map Prod.fst).Nodup ∧
    (noteOn s note velocity now).2
      = (noteOff s note now).2 ++ noteOnVoiceCmds s.params note velocity now ∧
    (noteOff s note now).1.activeNotes = mapDelete s.activeNotes note ∧
    mapLookup ((noteOff s note now).1.activeNotes) note = none ∧
    (noteOn s note velocity now).1.activeNotes
      = mapSet ((noteOff s note now).1.activeNotes) note
          (newActiveNote s.params) ∧
    ((noteOn s note velocity now).1.activeNotes.map Prod.fst).Nodup := by
  have hnd : (s.activeNotes.map Prod.fst).Nodup := by
    rw [hs]
    exact nodup_keys_runOps _ _ (by simp [initState])
  have hoff : noteOff s note now
      = ({s with activeNotes := mapDelete s.activeNotes note},
         noteOffCmds s.params now) := by
    rw [noteOff]
    simp [hctx, hact]
  refine ⟨hnd, ?_, ?_, ?_, ?_, ?_⟩
  · simp [noteOn, hoff, hctx, hact]
  · simp [hoff]
  · rw [hoff]
    exact lookup_mapDelete_self _ _ hnd
  · simp [noteOn, hoff, hctx, hact]
  · have heq : (noteOn s note velocity now).1.activeNotes
        = mapSet (mapDelete s.activeNotes note) note (newActiveNote s.params) := by
      simp [noteOn, hoff, hctx, hact]
    rw [heq]
    exact nodup_keys_mapSet _ _ _ (nodup_keys_mapDelete _ _ hnd)

/-- Witness for C1 at a concrete reachable state with note 60 active. -/
theorem noteOn_unique_voice_per_note_witness :
    exState1.audioContext = true ∧
    mapHas exState1.activeNotes 60 = true ∧
    ((exState1.activeNotes.map Prod.fst).Nodup ∧
     (noteOn exState1 60 100 1).2
       = (noteOff exState1 60 1).2 ++ noteOnVoiceCmds exState1.params 60 100 1 ∧
     (noteOff exState1 60 1).1.activeNotes = mapDelete exState1.activeNotes 60 ∧
     mapLookup ((noteOff exState1 60 1).1.activeNotes) 60 = none ∧
     (noteOn exState1 60 100 1).1.activeNotes
       = mapSet ((noteOff exState1 60 1).1.activeNotes) 60
           (newActiveNote exState1.params) ∧
     ((noteOn exState1 60 100 1).1.activeNotes.map Prod.fst).Nodup) :=
  ⟨rfl, rfl,
   noteOn_unique_voice_per_note exampleParams
     [AudioEngine.EngineOp.start, AudioEngine.EngineOp.noteOn 60 127 0]
     exState1 rfl 60 100 1 rfl rfl⟩

/-- C2: for an active note, noteOff removes the voice from the active map
immediately, anchors the amplitude stage and the filter-envelope generator
at their current values and ramps each to 0 over the respective release
times, and stops all six sound sources of the voice (four oscillators, the
LFO oscillator, the auxiliary generator) at exactly
max(ampRelease, filterRelease) seconds from now. -/
theorem noteOff_release_schedule (s : EngineState) (note : ℕ) (now : ℚ)
    (hctx : s.audioContext = true) (hact : mapHas s.activeNotes note = true) :
    (noteOff s note now).1.activeNotes = mapDelete s.activeNotes note ∧
    (noteOff s note now).2 = noteOffCmds s.params now ∧
    AudioCmd.setValueAtCurrent .ampGain now ∈ noteOffCmds s.params now ∧
    AudioCmd.linearRampToValueAtTime .ampGain 0
        (now + s.params.ampEnvelope.release) ∈ noteOffCmds s.params now ∧
    AudioCmd.setValueAtCurrent .filterEnvOffset now ∈ noteOffCmds s.params now ∧
    AudioCmd.linearRampToValueAtTime .filterEnvOffset 0
        (now + s.params.filterEnvelope.release) ∈ noteOffCmds s.params now ∧
    (∀ n : VoiceNode, AudioCmd.stopNode n
        (now + max s.params.ampEnvelope.release s.params.filterEnvelope.release)
        ∈ noteOffCmds s.params now) := by
  refine ⟨?_, ?_, ?_, ?_, ?_, ?_, ?_⟩
  · simp [noteOff, hctx, hact]
  · simp [noteOff, hctx, hact]
  · simp [noteOffCmds]
  · simp [noteOffCmds]
  · simp [noteOffCmds]
  · simp [noteOffCmds]
  · intro n
    rcases n with i | _ | _
    · fin_cases i <;> simp [noteOffCmds]
    · simp [noteOffCmds]
    · simp [noteOffCmds]

/-- Witness for C2 at a concrete reachable state with note 60 active. -/
theorem noteOff_release_schedule_witness :
    exState1.audioContext = true ∧
    mapHas exState1.activeNotes 60 = true ∧
    ((noteOff exState1 60 2).1.activeNotes = mapDelete exState1.activeNotes 60 ∧
     (noteOff exState1 60 2).2 = noteOffCmds exState1.params 2 ∧
     AudioCmd.setValueAtCurrent .ampGain 2 ∈ noteOffCmds exState1.params 2 ∧
     AudioCmd.linearRampToValueAtTime .ampGain 0
         (2 + exState1.params.ampEnvelope.release) ∈ noteOffCmds exState1.params 2 ∧
     AudioCmd.setValueAtCurrent .filterEnvOffset 2 ∈ noteOffCmds exState1.params 2 ∧
     AudioCmd.linearRampToValueAtTime .filterEnvOffset 0
         (2 + exState1.params.filterEnvelope.release) ∈ noteOffCmds exState1.params 2 ∧
     (∀ n : VoiceNode, AudioCmd.stopNode n
         (2 + max exState1.params.ampEnvelope.release
                exState1.params.filterEnvelope.release)
         ∈ noteOffCmds exState1.params 2)) :=
  ⟨rfl, rfl, noteOff_release_schedule exState1 60 2 rfl rfl⟩

/-- C3: noteOn computes the oscillator frequency as 440 * 2^((n-69)/12)
(in particular 440 at note 69 and 880 at note 81) and the velocity gain as
velocity/127: all four oscillators are set to that frequency and the
amplitude attack ramps to velocity/127. -/
theorem noteOn_frequency_and_velocity (note velocity : ℕ)
    (p : SynthParameters) (now : ℚ) :
    ((midiToFrequency note).coeff : ℝ)
        * (2 : ℝ) ^ (((midiToFrequency note).exp2 : ℚ) : ℝ)
      = 440 * (2 : ℝ) ^ (((note : ℝ) - 69) / 12) ∧
    ((midiToFrequency 69).coeff : ℝ)
        * (2 : ℝ) ^ (((midiToFrequency 69).exp2 : ℚ) : ℝ) = 440 ∧
    ((midiToFrequency 81).coeff : ℝ)
        * (2 : ℝ) ^ (((midiToFrequency 81).exp2 : ℚ) : ℝ) = 880 ∧
    (∀ i : Fin 4, AudioCmd.setFreqAtTime (.oscFreq i) (midiToFrequency note) now
        ∈ noteOnVoiceCmds p note velocity now) ∧
    AudioCmd.linearRampToValueAtTime .ampGain ((velocity : ℚ) / 127)
        (now + p.ampEnvelope.attack) ∈ noteOnVoiceCmds p note velocity now := by
  refine ⟨?_, ?_, ?_, ?_, ?_⟩
  · simp only [midiToFrequency]
    push_cast
    ring_nf
  · have h0 : (((midiToFrequency 69).exp2 : ℚ) : ℝ) = 0 := by
      norm_num [midiToFrequency]
    rw [h0, Real.rpow_zero]
    norm_num [midiToFrequency]
  · have h1 : (((midiToFrequency 81).exp2 : ℚ) : ℝ) = 1 := by
      norm_num [midiToFrequency]
    rw [h1, Real.rpow_one]
    norm_num [midiToFrequency]
  · intro i
    fin_cases i <;> simp [noteOnVoiceCmds, createOscCmds]
  · simp [noteOnVoiceCmds]

/-- C7: the LFO depth scaling maps depth to depth*1200 for target pitch,
depth*4800 for target filter, and depth*0.5 for target amp (so 1200, 4800
and 0.5 at full depth and 0 at zero depth for every target), and the same
constants govern both the live-update path (updateLfoDepth) and voice
creation (maxLfoDepthVal inside noteOn). -/
theorem lfo_depth_scaling :
    (∀ p : SynthParameters, ∀ target : LfoTarget, ∀ time : ℚ,
       updateLfoDepth p target time
         = [AudioCmd.setTargetAtTime .lfoGainGain (depthFor target p.lfo.depth)
              time 0.1]) ∧
    (∀ p : SynthParameters,
       maxLfoDepthVal p = depthFor p.lfo.target p.lfo.depth) ∧
    depthFor .pitch 1 = 1200 ∧
    depthFor .filter 1 = 4800 ∧
    depthFor .amp 1 = 0.5 ∧
    (∀ target : LfoTarget, depthFor target 0 = 0) := by
  refine ⟨?_, ?_, by norm_num [depthFor], by norm_num [depthFor],
    by norm_num [depthFor], ?_⟩
  · intro p target time
    cases target <;> simp [updateLfoDepth, depthFor]
  · intro p
    cases h : p.lfo.target <;> simp [maxLfoDepthVal, depthFor, h]
  · intro target
    cases target <;> norm_num [depthFor]

/-- C9: before start() has succeeded (no audio context), noteOn and
noteOff leave the whole state untouched and emit nothing, and updateParams
only stores the new parameter set, emitting nothing and leaving the
active-voice set unchanged; all three are total functions, so none can
throw. -/
theorem pre_start_noop (s : EngineState) (hctx : s.audioContext = false)
    (note velocity : ℕ) (now : ℚ) (p : SynthParameters) :
    noteOn s note velocity now = (s, []) ∧
    noteOff s note now = (s, []) ∧
    updateParams s p now = ({s with params := p}, []) ∧
    (updateParams s p now).1.activeNotes = s.activeNotes := by
  refine ⟨?_, ?_, ?_, ?_⟩ <;> simp [noteOn, noteOff, updateParams, hctx]

/-- Witness for C9 at the freshly constructed engine. -/
theorem pre_start_noop_witness :
    (AudioEngine.initState exampleParams).audioContext = false ∧
    (noteOn (AudioEngine.initState exampleParams) 60 127 0
       = (AudioEngine.initState exampleParams, []) ∧
     noteOff (AudioEngine.initState exampleParams) 60 0
       = (AudioEngine.initState exampleParams, []) ∧
     updateParams (AudioEngine.initState exampleParams) exampleParams2 0
       = ({AudioEngine.initState exampleParams with params := exampleParams2}, []) ∧
     (updateParams (AudioEngine.initState exampleParams) exampleParams2 0).1.activeNotes
       = (AudioEngine.initState exampleParams).activeNotes) :=
  ⟨rfl, pre_start_noop (AudioEngine.initState exampleParams) rfl 60 127 0
     exampleParams2⟩

open DrumMachineEngine

/-- A start command in a kick one-shot starts exactly at the play time. -/
lemma start_time_createKick {n : DrumNodeName} {tm : ℚ} (rate : Pow2) (t : ℚ)
    (h : DrumCmd.start n tm ∈ createKick rate t) : tm = t := by
  simp [createKick] at h
  exact h.2

/-- A start command in a snare one-shot starts exactly at the play time. -/
lemma start_time_createSnare {n : DrumNodeName} {tm : ℚ} (rate : Pow2) (t : ℚ)
    (h : DrumCmd.start n tm ∈ createSnare rate t) : tm = t := by
  simp [createSnare] at h
  rcases h with h | h <;> exact h.2

/-- A start command in a hi-hat one-shot starts exactly at the play time. -/
lemma start_time_createHihat {n : DrumNodeName} {tm : ℚ} (rate : Pow2) (t : ℚ)
    (h : DrumCmd.start n tm ∈ createHihat rate t) : tm = t := by
  simp [createHihat] at h
  exact h.2

/-- A start command in a crash one-shot starts exactly at the play time. -/
lemma start_time_createCrash {n : DrumNodeName} {tm : ℚ} (rate : Pow2) (t : ℚ)
    (h : DrumCmd.start n tm ∈ createCrash rate t) : tm = t := by
  simp [createCrash] at h
  exact h.2

/-- C4: play() in the stopped state with a pattern loaded resets
currentStep to 0 and sets the grid time to now + 0.05 before running the
scheduler, and consequently no audio command of the play call is scheduled
earlier than the current time. -/
theorem play_lead_in (s : DrumState) (now : ℚ) (fuel : ℕ)
    (hstopped : s.isPlaying = false) (hpat : s.pattern.isSome = true)
    (hbpm : 0 < s.bpm) (hsw : 0 ≤ s.swing) :
    play fuel s now
      = scheduler fuel
          {s with isPlaying := true, currentStep := 0,
                  nextNoteTime := now + 0.05} now ∧
    (∀ c : DrumCmd, DrumEvent.audio c ∈ (play fuel s now).2 →
       ∀ tm, c.time = some tm → now ≤ tm) := by
  obtain ⟨pat, hp⟩ := Option.isSome_iff_exists.mp hpat
  have hplayeq : play fuel s now
      = scheduler fuel
          {s with isPlaying := true, currentStep := 0,
                  nextNoteTime := now + 0.05} now := by
    rw [play]
    simp [hstopped, hp]
  refine ⟨hplayeq, ?_⟩
  intro c hc tm htm
  rw [hplayeq] at hc
  simp only [scheduler, List.mem_append, List.mem_singleton] at hc
  rcases hc with hc | hc
  · exact schedulerLoop_time_ge fuel
      {s with isPlaying := true, currentStep := 0,
              nextNoteTime := now + 0.05} now now hbpm hsw
      (by show (now : ℚ) ≤ now + 0.05; linarith) c hc tm htm
  · simp at hc

/-- Witness for C4 at a concrete stopped drum state, 120 bpm, swing 50. -/
theorem play_lead_in_witness :
    exampleDrumState.isPlaying = false ∧
    exampleDrumState.pattern.isSome = true ∧
    (0 : ℚ) < exampleDrumState.bpm ∧
    (0 : ℚ) ≤ exampleDrumState.swing ∧
    play 4 exampleDrumState 0
      = scheduler 4
          {exampleDrumState with isPlaying := true, currentStep := 0,
                                 nextNoteTime := 0 + 0.05} 0 ∧
    (0 : ℚ) ≤ 0.05 :=
  ⟨rfl, rfl, by norm_num [exampleDrumState], by norm_num [exampleDrumState],
   (play_lead_in exampleDrumState 0 4 rfl rfl
      (by norm_num [exampleDrumState]) (by norm_num [exampleDrumState])).1,
   (play_lead_in exampleDrumState 0 4 rfl rfl
      (by norm_num [exampleDrumState]) (by norm_num [exampleDrumState])).2
     (DrumCmd.start .kickOsc 0.05)
     (by norm_num [play, scheduler, schedulerLoop, scheduleNextNote,
        exampleDrumState, examplePattern, jsTruthy, createKick, createSnare,
        createHihat, createCrash, getRate, TrackPitches.get])
     0.05 rfl⟩

/-- C5: within one scheduled step, every fired drum source starts at
nextStepTime + swingDelay, where swingDelay is
(swing/100)*(secondsPer16th/2) on odd step indices and 0 on even ones (so
0 for every step at swing 0, and half a 16th on odd steps at swing 100),
while the grid advance nextStepTime += secondsPer16th is unswung. -/
theorem swing_only_delays_sound (s : DrumState) (now : ℚ)
    (pat : StepSequencePattern) (hpat : s.pattern = some pat) :
    (∀ n tm, DrumEvent.audio (DrumCmd.start n tm) ∈ (scheduleNextNote s now).2 →
       tm = s.nextNoteTime +
         (if s.currentStep % 2 = 1
           then s.swing / 100 * (60 / s.bpm / 4 / 2) else 0)) ∧
    (scheduleNextNote s now).1.nextNoteTime = s.nextNoteTime + 60 / s.bpm / 4 ∧
    (s.swing = 0 →
       ∀ n tm, DrumEvent.audio (DrumCmd.start n tm) ∈ (scheduleNextNote s now).2 →
         tm = s.nextNoteTime) ∧
    (s.swing = 100 →
       ∀ n tm, DrumEvent.audio (DrumCmd.start n tm) ∈ (scheduleNextNote s now).2 →
         tm = s.nextNoteTime +
           (if s.currentStep % 2 = 1 then 60 / s.bpm / 4 / 2 else 0)) := by
  have hmain : ∀ n tm,
      DrumEvent.audio (DrumCmd.start n tm) ∈ (scheduleNextNote s now).2 →
      tm = s.nextNoteTime +
        (if s.currentStep % 2 = 1
          then s.swing / 100 * (60 / s.bpm / 4 / 2) else 0) := by
    intro n tm hmem
    simp only [scheduleNextNote, hpat, List.mem_append] at hmem
    rcases hmem with (((h | h) | h) | h) | h
    · have h' := mem_of_mem_ite h
      simp only [List.mem_map, DrumEvent.audio.injEq] at h'
      obtain ⟨c', hc', hceq⟩ := h'
      subst hceq
      rw [start_time_createKick _ _ hc']
      simp [beq_iff_eq]
    · have h' := mem_of_mem_ite h
      simp only [List.mem_map, DrumEvent.audio.injEq] at h'
      obtain ⟨c', hc', hceq⟩ := h'
      subst hceq
      rw [start_time_createSnare _ _ hc']
      simp [beq_iff_eq]
    · have h' := mem_of_mem_ite h
      simp only [List.mem_map, DrumEvent.audio.injEq] at h'
      obtain ⟨c', hc', hceq⟩ := h'
      subst hceq
      rw [start_time_createHihat _ _ hc']
      simp [beq_iff_eq]
    · have h' := mem_of_mem_ite h
      simp only [List.mem_map, DrumEvent.audio.injEq] at h'
      obtain ⟨c', hc', hceq⟩ := h'
      subst hceq
      rw [start_time_createCrash _ _ hc']
      simp [beq_iff_eq]
    · have h' := mem_of_mem_ite h
      simp at h'
  refine ⟨hmain, ?_, ?_, ?_⟩
  · simp [scheduleNextNote, hpat]
  · intro h0 n tm hm
    rw [hmain n tm hm, h0]
    split_ifs <;> norm_num
  · intro h100 n tm hm
    rw [hmain n tm hm, h100]
    split_ifs <;> ring

/-- Witness for C5 at a concrete state (even step, so zero swing delay). -/
theorem swing_only_delays_sound_witness :
    exampleDrumState.pattern = some examplePattern ∧
    (scheduleNextNote exampleDrumState 7).1.nextNoteTime
      = exampleDrumState.nextNoteTime + 60 / exampleDrumState.bpm / 4 ∧
    (0 : ℚ) = exampleDrumState.nextNoteTime +
      (if 0 % 2 = 1
        then exampleDrumState.swing / 100 * (60 / exampleDrumState.bpm / 4 / 2)
        else 0) :=
  ⟨rfl,
   (swing_only_delays_sound exampleDrumState 7 examplePattern rfl).2.1,
   (swing_only_delays_sound exampleDrumState 7 examplePattern rfl).1
     .kickOsc 0
     (by norm_num [scheduleNextNote, exampleDrumState, examplePattern,
        jsTruthy, createKick, createSnare, createHihat, createCrash, getRate,
        TrackPitches.get])⟩

/-- C6: for every track whose pattern bit at currentStep is set, the
scheduling pass invokes that track's generator at the computed fire time
(grid time plus swing delay), passing the track's pitch rate; the rate is
2^(semitones/12), it scales the generators' oscillator frequencies, filter
frequencies and noise playback rates, and the audio commands of the pass
do not depend on the wall-clock time at which the scheduling code runs. -/
theorem scheduler_invokes_generators (s : DrumState) (now now2 : ℚ)
    (pat : StepSequencePattern) (hpat : s.pattern = some pat) :
    (jsTruthy (pat.kick.getD s.currentStep 0) = true →
       ∀ c ∈ createKick (getRate s.trackPitches .kick)
           (s.nextNoteTime + (if s.currentStep % 2 = 1
              then s.swing / 100 * (60 / s.bpm / 4 / 2) else 0)),
         DrumEvent.audio c ∈ (scheduleNextNote s now).2) ∧
    (jsTruthy (pat.snare.getD s.currentStep 0) = true →
       ∀ c ∈ createSnare (getRate s.trackPitches .snare)
           (s.nextNoteTime + (if s.currentStep % 2 = 1
              then s.swing / 100 * (60 / s.bpm / 4 / 2) else 0)),
         DrumEvent.audio c ∈ (scheduleNextNote s now).2) ∧
    (jsTruthy (pat.hihat.getD s.currentStep 0) = true →
       ∀ c ∈ createHihat (getRate s.trackPitches .hihat)
           (s.nextNoteTime + (if s.currentStep % 2 = 1
              then s.swing / 100 * (60 / s.bpm / 4 / 2) else 0)),
         DrumEvent.audio c ∈ (scheduleNextNote s now).2) ∧
    (jsTruthy (pat.crash.getD s.currentStep 0) = true →
       ∀ c ∈ createCrash (getRate s.trackPitches .crash)
           (s.nextNoteTime + (if s.currentStep % 2 = 1
              then s.swing / 100 * (60 / s.bpm / 4 / 2) else 0)),
         DrumEvent.audio c ∈ (scheduleNextNote s now).2) ∧
    (∀ track : DrumTrackName,
       ((getRate s.trackPitches track).coeff : ℝ)
           * (2 : ℝ) ^ (((getRate s.trackPitches track).exp2 : ℚ) : ℝ)
         = (2 : ℝ) ^ (((s.trackPitches.get track : ℚ) : ℝ) / 12)) ∧
    (∀ rate : Pow2, ∀ t : ℚ,
       DrumCmd.setValueAtTime .kickOscFreq (Pow2.scale 150 rate) t
           ∈ createKick rate t ∧
       DrumCmd.setVal .snarePlaybackRate rate ∈ createSnare rate t ∧
       DrumCmd.setVal .snareFilterFreq (Pow2.scale 1000 rate)
           ∈ createSnare rate t ∧
       DrumCmd.setVal .snareOscFreq (Pow2.scale 100 rate) ∈ createSnare rate t ∧
       DrumCmd.setVal .hihatPlaybackRate rate ∈ createHihat rate t ∧
       DrumCmd.setVal .hihatFilterFreq (Pow2.scale 7000 rate)
           ∈ createHihat rate t ∧
       DrumCmd.setVal .crashPlaybackRate rate ∈ createCrash rate t ∧
       DrumCmd.setValueAtTime .crashFilterFreq (Pow2.scale 3000 rate) t
           ∈ createCrash rate t) ∧
    (∀ q : ℚ, ∀ r : Pow2,
       ((Pow2.scale q r).coeff : ℝ)
           * (2 : ℝ) ^ (((Pow2.scale q r).exp2 : ℚ) : ℝ)
         = q * ((r.coeff : ℝ) * (2 : ℝ) ^ ((r.exp2 : ℚ) : ℝ))) ∧
    ((scheduleNextNote s now).1 = (scheduleNextNote s now2).1 ∧
     (scheduleNextNote s now).2.filter DrumEvent.isAudio
       = (scheduleNextNote s now2).2.filter DrumEvent.isAudio) := by
  refine ⟨?_, ?_, ?_, ?_, ?_, ?_, ?_, ?_, ?_⟩
  · intro hbit c hc
    simp only [scheduleNextNote, hpat, beq_iff_eq]
    refine List.mem_append_left _ ?_
    refine List.mem_append_left _ ?_
    refine List.mem_append_left _ ?_
    refine List.mem_append_left _ ?_
    rw [if_pos hbit]
    exact List.mem_map_of_mem _ hc
  · intro hbit c hc
    simp only [scheduleNextNote, hpat, beq_iff_eq]
    refine List.mem_append_left _ ?_
    refine List.mem_append_left _ ?_
    refine List.mem_append_left _ ?_
    refine List.mem_append_right _ ?_
    rw [if_pos hbit]
    exact List.mem_map_of_mem _ hc
  · intro hbit c hc
    simp only [scheduleNextNote, hpat, beq_iff_eq]
    refine List.mem_append_left _ ?_
    refine List.mem_append_left _ ?_
    refine List.mem_append_right _ ?_
    rw [if_pos hbit]
    exact List.mem_map_of_mem _ hc
  · intro hbit c hc
    simp only [scheduleNextNote, hpat, beq_iff_eq]
    refine List.mem_append_left _ ?_
    refine List.mem_append_right _ ?_
    rw [if_pos hbit]
    exact List.mem_map_of_mem _ hc
  · intro track
    simp only [getRate, Rat.cast_one, one_mul]
    congr 1
    push_cast
    ring
  · intro rate t
    refine ⟨?_, ?_, ?_, ?_, ?_, ?_, ?_, ?_⟩ <;>
      simp [createKick, createSnare, createHihat, createCrash]
  · intro q r
    simp only [Pow2.scale]
    push_cast
    ring
  · simp [scheduleNextNote, hpat]
  · by_cases hcb : s.hasStepCallback <;>
      simp [scheduleNextNote, hpat, hcb, DrumEvent.isAudio]

/-- Witness for C6 at a concrete state with the kick bit set on step 0 and
a kick pitch of +2 semitones. -/
theorem scheduler_invokes_generators_witness :
    exampleDrumState.pattern = some examplePattern ∧
    jsTruthy (examplePattern.kick.getD exampleDrumState.currentStep 0) = true ∧
    DrumEvent.audio (DrumCmd.setValueAtTime .kickOscFreq
        (Pow2.scale 150 (getRate exampleDrumState.trackPitches .kick))
        (exampleDrumState.nextNoteTime +
          (if exampleDrumState.currentStep % 2 = 1
            then exampleDrumState.swing / 100
              * (60 / exampleDrumState.bpm / 4 / 2) else 0)))
      ∈ (scheduleNextNote exampleDrumState 7).2 ∧
    ((getRate exampleDrumState.trackPitches DrumTrackName.kick).coeff : ℝ)
        * (2 : ℝ) ^ (((getRate exampleDrumState.trackPitches
              DrumTrackName.kick).exp2 : ℚ) : ℝ)
      = (2 : ℝ) ^ (((exampleDrumState.trackPitches.get
              DrumTrackName.kick : ℚ) : ℝ) / 12) :=
  ⟨rfl, rfl,
   (scheduler_invokes_generators exampleDrumState 7 7 examplePattern rfl).1
     rfl _ (by simp [createKick]),
   (scheduler_invokes_generators exampleDrumState 7 7
       examplePattern rfl).2.2.2.2.1 DrumTrackName.kick⟩

/-- C8: stop() in the running state clears the pending wake timer and
emits the sentinel step value -1 to the step callback, whatever the
mid-step state is; stop() when already stopped changes no state and emits
nothing. -/
theorem stop_emits_sentinel (s : DrumState) :
    DrumMachineEngine.stop {s with isPlaying := true, hasStepCallback := true}
      = ({s with isPlaying := false, hasStepCallback := true},
         [DrumEvent.clearTimer, DrumEvent.stepCallback (-1)]) ∧
    DrumMachineEngine.stop {s with isPlaying := false}
      = ({s with isPlaying := false}, []) := by
  constructor <;> simp [DrumMachineEngine.stop]

/-- C10: the release durations applied by noteOff come from the parameter
set held by the engine when noteOff runs: after updateParams replaces the
patch, noteOff's trace equals the release schedule of the new patch — the
amplitude ramp ends at now + newAmpRelease, the auxiliary-envelope ramp at
now + newFilterRelease, and every source stops at now + max of the two. -/
theorem noteOff_uses_current_release (s : EngineState)
    (pNew : SynthParameters) (note : ℕ) (t u : ℚ)
    (hctx : s.audioContext = true)
    (hact : mapHas s.activeNotes note = true) :
    (noteOff (updateParams s pNew t).1 note u).2 = noteOffCmds pNew u ∧
    AudioCmd.linearRampToValueAtTime .ampGain 0 (u + pNew.ampEnvelope.release)
        ∈ noteOffCmds pNew u ∧
    AudioCmd.linearRampToValueAtTime .filterEnvOffset 0
        (u + pNew.filterEnvelope.release) ∈ noteOffCmds pNew u ∧
    (∀ n : VoiceNode, AudioCmd.stopNode n
        (u + max pNew.ampEnvelope.release pNew.filterEnvelope.release)
        ∈ noteOffCmds pNew u) := by
  have h1 : (updateParams s pNew t).1.audioContext = true := by
    simp [updateParams, hctx]
  have h2 : mapHas (updateParams s pNew t).1.activeNotes note = true := by
    simp [updateParams, hctx, mapHas_map_values, hact]
  have h3 : (updateParams s pNew t).1.params = pNew := by
    simp [updateParams, hctx]
  refine ⟨?_, ?_, ?_, ?_⟩
  · rw [noteOff]
    simp [h1, h2, h3]
  · simp [noteOffCmds]
  · simp [noteOffCmds]
  · intro n
    rcases n with i | _ | _
    · fin_cases i <;> simp [noteOffCmds]
    · simp [noteOffCmds]
    · simp [noteOffCmds]

/-- Witness for C10: the patch is replaced between noteOn and noteOff, and
the release tail follows the new patch. -/
theorem noteOff_uses_current_release_witness :
    exState1.audioContext = true ∧
    mapHas exState1.activeNotes 60 = true ∧
    (noteOff (updateParams exState1 exampleParams2 1).1 60 2).2
      = noteOffCmds exampleParams2 2 ∧
    AudioCmd.linearRampToValueAtTime .ampGain 0
        (2 + exampleParams2.ampEnvelope.release) ∈ noteOffCmds exampleParams2 2 ∧
    AudioCmd.stopNode VoiceNode.lfoOsc
        (2 + max exampleParams2.ampEnvelope.release
               exampleParams2.filterEnvelope.release)
      ∈ noteOffCmds exampleParams2 2 :=
  ⟨rfl, rfl,
   (noteOff_uses_current_release exState1 exampleParams2 60 1 2 rfl rfl).1,
   (noteOff_uses_current_release exState1 exampleParams2 60 1 2 rfl rfl).2.1,
   (noteOff_uses_current_release exState1 exampleParams2 60 1 2 rfl rfl).2.2.2
     VoiceNode.lfoOsc⟩

end Subtractive
